/-
Verification of the cronix task-scheduler repository: a shallow embedding
of its data model (frontend TypeScript types, SQL schema from the
migration notes) and of the scheduler core components (Cron Evaluator,
Execution Runner, Retry Controller, Task Registry, Notification
Dispatcher).  The backend Python services are not part of the source
tree; where a claim depends on them, the corresponding definition is
modelled from the specification document and marked as such in its
doc comment.
-/
import Mathlib

namespace Cronix

/-! ## Execution status (src/unnamed/part_012, `ExecutionStatus`)

The TypeScript enum has exactly six members, each carrying a string
value: PENDING = "pending", RUNNING = "running", SUCCESS = "success",
FAILED = "failed", TIMEOUT = "timeout", CANCELLED = "cancelled". -/

inductive ExecutionStatus where
  | pending
  | running
  | success
  | failed
  | timeout
  | cancelled
deriving DecidableEq, Repr

/-- The string value attached to each enum member in
`src/unnamed/part_012` lines 31–38. -/
def ExecutionStatus.value : ExecutionStatus → String
  | .pending => "pending"
  | .running => "running"
  | .success => "success"
  | .failed => "failed"
  | .timeout => "timeout"
  | .cancelled => "cancelled"

/-- A status is terminal when the process has ended: `success`,
`failed`, `timeout` or `cancelled` (spec §3, Execution lifecycle). -/
def ExecutionStatus.isTerminal : ExecutionStatus → Bool
  | .success => true
  | .failed => true
  | .timeout => true
  | .cancelled => true
  | _ => false

/-- The badge data computed by `getStatusBadge` in
`src/web/src/pages/Executions.tsx` lines 64–75: a label plus two CSS
classes, one entry per status, with no default branch. -/
structure StatusBadge where
  label : String
  bgClass : String
  textClass : String
deriving DecidableEq, Repr

/-- `getStatusBadge`'s `statusMap` from `src/web/src/pages/Executions.tsx`. -/
def getStatusBadge : ExecutionStatus → StatusBadge
  | .pending => ⟨"等待中", "bg-muted", "text-muted-foreground"⟩
  | .running => ⟨"运行中", "bg-blue-500", "text-white"⟩
  | .success => ⟨"成功", "bg-primary", "text-primary-foreground"⟩
  | .failed => ⟨"失败", "bg-red-500", "text-white"⟩
  | .timeout => ⟨"超时", "bg-yellow-500", "text-white"⟩
  | .cancelled => ⟨"已取消", "bg-muted", "text-muted-foreground"⟩

/-! ## Notification targets (src/unnamed/part_012, `NotifyType`,
`NotificationConfig`, `NotificationSchema`; src/unnamed/part_001,
`cm_notifications` table) -/

inductive NotifyType where
  | webhook
  | telegram
  | dingtalk
deriving DecidableEq, Repr

/-- The string value attached to each `NotifyType` member in
`src/unnamed/part_012` lines 41–45. -/
def NotifyType.value : NotifyType → String
  | .webhook => "webhook"
  | .telegram => "telegram"
  | .dingtalk => "dingtalk"

/-- `NotificationConfigWebhook` / `NotificationConfigTelegram` /
`NotificationConfigDingtalk` from `src/unnamed/part_012`: a tagged
union over the three transport shapes. -/
inductive NotificationConfig where
  | webhook (url : String)
  | telegram (bot_token : String) (chat_id : String)
  | dingtalk (webhook_url : String) (secret : String)
deriving DecidableEq, Repr

/-- `NotificationSchema` from `src/unnamed/part_012` lines 164–189:
a notification target is exactly a `notify_type` plus a `config` —
these are its only fields. -/
structure NotificationSchema where
  notify_type : NotifyType
  config : NotificationConfig
deriving DecidableEq, Repr

/-- The columns of the `cm_notifications` table from the migration
notes in `src/unnamed/part_001`. -/
def cmNotificationsColumns : List String :=
  ["id", "notify_type", "config", "created_at", "updated_at"]

/-- The delivery-policy values the specification asserts for
notification targets (spec §4.6 and §6). -/
def specDeliveryPolicyValues : List String :=
  ["never", "always", "failure-only"]

/-- The three `NotifyType` string values, in declaration order. -/
def notifyTypeValues : List String :=
  ["webhook", "telegram", "dingtalk"]

/-! ## Task form numeric coercion (src/unnamed/part_002 lines 199–232
and src/unnamed/part_003 lines 198–231)

Each numeric policy input is wired as
`onChange = (e) => form.updateValue(key, parseInt(e.target.value) || default)`.
`parseInt` yields `NaN` on non-numeric input (modelled as `none`), and
`NaN || d = d`, `0 || d = d`, `v || d = v` for any other number. -/

/-- The JavaScript `parseInt(raw) || dflt` coercion: a non-numeric
entry (`none`) or an entry parsing to `0` is replaced by the default;
any other parsed value passes through unchanged. -/
def coerceNumericInput (dflt : Int) (raw : Option Int) : Int :=
  match raw with
  | none => dflt
  | some v => if v = 0 then dflt else v

/-- The `timeout` input's coercion (default 3600). -/
def timeoutInput (raw : Option Int) : Int :=
  coerceNumericInput 3600 raw

/-- The `retry_count` input's coercion (default 0). -/
def retryCountInput (raw : Option Int) : Int :=
  coerceNumericInput 0 raw

/-- The `retry_interval` input's coercion (default 60). -/
def retryIntervalInput (raw : Option Int) : Int :=
  coerceNumericInput 60 raw

/-- The fields checked by `form.validate` in `handleSave`
(src/unnamed/part_002 lines 73–78): only `name`, `cron_expression`
and `command` have validation rules; the numeric policy fields have
none, so no validation error is ever set for them. -/
def taskFormValidatedFields : List String :=
  ["name", "cron_expression", "command"]

/-! ## Task Registry and scheduler tick

Modelled from the spec: the backend service `src/services/scheduler.py`
is not part of the source tree (the README only lists it in the project
layout), so the Task Registry (spec §4.4) and the Scheduler Loop's tick
(spec §4.5) are modelled from the specification's words. -/

/-- Modelled from the spec: a Run Handle is the in-memory marker of an
in-flight execution — a process identifier plus a cancellation flag
(spec §3, "Run Handle"). -/
structure RunHandle where
  cancelRequested : Bool
deriving DecidableEq, Repr

/-- Modelled from the spec: the Registry's Run-Handle map, keyed by
task id.  Missing backend: `src/services/scheduler.py`. -/
def Registry : Type := List (Nat × RunHandle)

/-- Look up the live Run Handle for a task id, if any. -/
def Registry.lookup (st : Registry) (id : Nat) : Option RunHandle :=
  match st with
  | [] => none
  | (k, h) :: rest => if k = id then some h else Registry.lookup rest id

/-- The Registry well-formedness invariant: at most one live Run Handle
per task id (spec §3). -/
def Registry.WF (st : Registry) : Prop :=
  (List.map Prod.fst st).Nodup

/-- Modelled from the spec: `tryAcquire(taskId) -> handle | busy`
(spec §4.4).  If a Run Handle already exists for the id, acquisition
fails (`none`) and the state is unchanged; otherwise a fresh handle
with a cleared cancellation flag is installed. -/
def tryAcquire (st : Registry) (id : Nat) : Option RunHandle × Registry :=
  match Registry.lookup st id with
  | some _ => (none, st)
  | none => (some ⟨false⟩, (id, (⟨false⟩ : RunHandle)) :: st)

/-- Modelled from the spec: `release(taskId)` removes the Run Handle
the instant the execution reaches a terminal state (spec §3, §4.4). -/
def Registry.release (st : Registry) (id : Nat) : Registry :=
  List.filter (fun p => p.1 != id) st

/-- Modelled from the spec: `requestCancel(taskId) -> bool` succeeds
only if a live handle exists, and then sets the cancellation flag
(spec §4.4). -/
def requestCancel (st : Registry) (id : Nat) : Bool × Registry :=
  match Registry.lookup st id with
  | some _ =>
      (true, List.map (fun p => if p.1 = id then (p.1, (⟨true⟩ : RunHandle)) else p) st)
  | none => (false, st)

/-- A minimal Execution record as created by a dispatch: a task id and
a status, created in `pending` (spec §3). -/
structure DispatchedExecution where
  task_id : Nat
  status : ExecutionStatus
deriving DecidableEq, Repr

/-- Modelled from the spec: one scheduler tick over the list of due
task ids — `for each due task: tryAcquire → (if acquired) dispatch`
(spec §4.5).  A busy acquisition is simply skipped: it is not queued
(the tick state holds no queue) and not errored (the tick always
returns normally).  Each successful acquisition creates exactly one
new `pending` Execution. -/
def schedulerTick (st : Registry) (due : List Nat) : Registry × List DispatchedExecution :=
  match due with
  | [] => (st, [])
  | id :: rest =>
    match tryAcquire st id with
    | (none, st1) => schedulerTick st1 rest
    | (some _, st1) =>
      let r := schedulerTick st1 rest
      (r.1, ⟨id, ExecutionStatus.pending⟩ :: r.2)

/-! ## Retry Controller

Modelled from the spec: the retry loop lives in the missing backend
service `src/services/scheduler.py`; its algorithm is spec §4.3. -/

/-- An attempt result triggers a retry exactly when it is `failed` or
`timeout` — not on `success`, not on `cancelled` (spec §4.3). -/
def shouldRetry (r : ExecutionStatus) : Bool :=
  r == ExecutionStatus.failed || r == ExecutionStatus.timeout

/-- Modelled from the spec: the retry recursion.  `results i` is the
status attempt `i` would produce; `budget` is the number of retries
still allowed.  Attempt `idx` always runs; a further attempt runs only
when the result is `failed` or `timeout` and budget remains. -/
def retryGo (results : Nat → ExecutionStatus) : Nat → Nat → List (Nat × ExecutionStatus)
  | idx, 0 => [(idx, results idx)]
  | idx, b + 1 =>
    (idx, results idx) ::
      (if shouldRetry (results idx) then retryGo results (idx + 1) b else [])

/-- Modelled from the spec: `runWithRetry(task)` — attempt 0 runs
immediately, with at most `retry_count` further attempts (spec §4.3). -/
def retrySequence (results : Nat → ExecutionStatus) (retry_count : Nat) :
    List (Nat × ExecutionStatus) :=
  retryGo results 0 retry_count

/-- The observable timeline of one firing: process runs interleaved
with inter-attempt sleeps. -/
inductive RetryAction where
  | run (idx : Nat)
  | sleep (secs : Nat)
deriving DecidableEq, Repr

/-- Modelled from the spec: the action trace of the retry loop — on
`failed` or `timeout` with budget left, sleep `retry_interval` seconds
then run the next attempt (spec §4.3). -/
def retryTraceGo (results : Nat → ExecutionStatus) (retry_interval : Nat) :
    Nat → Nat → List RetryAction
  | idx, 0 => [RetryAction.run idx]
  | idx, b + 1 =>
    RetryAction.run idx ::
      (if shouldRetry (results idx) then
        RetryAction.sleep retry_interval :: retryTraceGo results retry_interval (idx + 1) b
      else [])

/-- The full action trace of one firing. -/
def retryTrace (results : Nat → ExecutionStatus) (retry_count retry_interval : Nat) :
    List RetryAction :=
  retryTraceGo results retry_interval 0 retry_count

/-! ## Execution Runner outcome

Modelled from the spec: the Runner (spec §4.2) is part of the missing
backend service; its outcome decision is modelled from the spec's
words on timeout, exit codes and cooperative cancellation. -/

/-- What one attempt's process does: when it would exit naturally,
with which exit code, and when (if ever) a cancellation signal
arrives. -/
structure AttemptObservation where
  exitsAt : Nat
  exitCode : Nat
  cancelAt : Option Nat
deriving DecidableEq, Repr

/-- Modelled from the spec: the Runner's recorded status for one
attempt under a `tmo`-second deadline.  A cancellation signal observed
while the attempt is still alive (before natural exit and no later
than the deadline — the Runner checks the flag before terminating for
timeout) yields `cancelled`, taking precedence over a
concurrently-expiring timeout; otherwise a missed deadline yields
`timeout`; otherwise exit code 0 yields `success` and any other exit
code `failed` (spec §4.2). -/
def runnerOutcome (tmo : Nat) (obs : AttemptObservation) : ExecutionStatus :=
  match obs.cancelAt with
  | some tc =>
    if tc < obs.exitsAt ∧ tc ≤ tmo then ExecutionStatus.cancelled
    else if tmo < obs.exitsAt then ExecutionStatus.timeout
    else if obs.exitCode = 0 then ExecutionStatus.success
    else ExecutionStatus.failed
  | none =>
    if tmo < obs.exitsAt then ExecutionStatus.timeout
    else if obs.exitCode = 0 then ExecutionStatus.success
    else ExecutionStatus.failed

/-! ## Execution record lifecycle

Modelled from the spec: persistence of Execution records happens in
the missing backend; the lifecycle automaton is spec §3 ("pending →
running → one terminal state; never mutated after reaching a terminal
state"). -/

/-- A full Execution record (spec §3; field list mirrors
`TaskExecutionResponse` in `src/unnamed/part_012`). -/
structure Execution where
  task_id : Nat
  status : ExecutionStatus
  started_at : Option Nat
  finished_at : Option Nat
  output : Option String
  error : Option String
  retry_attempt : Nat
deriving DecidableEq, Repr

/-- The events that can reach a stored Execution record. -/
inductive ExecutionEvent where
  | start (time : Nat)
  | complete (result : ExecutionStatus) (time : Nat) (out err : Option String)
deriving DecidableEq, Repr

/-- Modelled from the spec: the lifecycle transition function.  A
`pending` record starts running; a `running` record completes into a
terminal state; every other combination leaves the record untouched
(spec §3). -/
def applyEvent (e : Execution) (ev : ExecutionEvent) : Execution :=
  match ev, e.status with
  | ExecutionEvent.start t, ExecutionStatus.pending =>
      { e with status := ExecutionStatus.running, started_at := some t }
  | ExecutionEvent.complete r t out err, ExecutionStatus.running =>
      if r.isTerminal then
        { e with status := r, finished_at := some t, output := out, error := err }
      else e
  | _, _ => e

/-! ## Task policy validation

Modelled from the spec: the Pydantic schemas (`src/models/schemas.py`)
are not in the source tree; the bounds are spec §6 and the README's
task-configuration table (`src/unnamed/part_016` lines 244–257):
timeout 1–3600 s, retry_count 0–5, retry_interval 1–600 s, checked at
creation and at update. -/

/-- The three bounded policy fields of a task create/update request. -/
structure TaskPolicy where
  timeout : Int
  retry_count : Int
  retry_interval : Int
deriving DecidableEq, Repr

/-- Modelled from the spec: schema validation of the policy fields,
with one error message per violated bound. -/
def validateTaskPolicy (p : TaskPolicy) : Except String TaskPolicy :=
  if p.timeout < 1 ∨ 3600 < p.timeout then
    Except.error "timeout must be between 1 and 3600"
  else if p.retry_count < 0 ∨ 5 < p.retry_count then
    Except.error "retry_count must be between 0 and 5"
  else if p.retry_interval < 1 ∨ 600 < p.retry_interval then
    Except.error "retry_interval must be between 1 and 600"
  else Except.ok p

/-- Modelled from the spec: task creation validates the policy
fields. -/
def createTaskRequest (p : TaskPolicy) : Except String TaskPolicy :=
  validateTaskPolicy p

/-- Modelled from the spec: task update validates the same policy
fields with the same bounds. -/
def updateTaskRequest (p : TaskPolicy) : Except String TaskPolicy :=
  validateTaskPolicy p

/-! ## Frontend API client response handling
(src/web/src/api/request.ts, `ApiClient.setupInterceptors`) -/

/-- The JSON envelope the backend wraps responses in (`ApiResponse` in
`src/unnamed/part_012`), with each field optional as seen by the
interceptor's defensive access. -/
structure ResponseBody (α : Type) where
  code : Option Int
  message : Option String
  data : Option α
deriving DecidableEq, Repr

/-- An HTTP response as the interceptor sees it: a status code and an
optional parsed JSON body. -/
structure AxiosResponse (α : Type) where
  status : Nat
  body : Option (ResponseBody α)
deriving DecidableEq, Repr

/-- The `ApiError` thrown by the interceptor
(src/web/src/api/request.ts lines 11–21): message, HTTP status, and
the raw body. -/
structure ApiErrorData (α : Type) where
  message : String
  status : Nat
  body : Option (ResponseBody α)
deriving DecidableEq, Repr

/-- The JavaScript expression `data?.message || defaultMsg`: a missing
or empty message falls back to the default "请求失败". -/
def envelopeErrorMessage {α : Type} (b : ResponseBody α) : String :=
  match b.message with
  | some m => if m = "" then "请求失败" else m
  | none => "请求失败"

/-- The response interceptor of `ApiClient.setupInterceptors`
(src/web/src/api/request.ts lines 69–81): a 204 response yields
`undefined`; a body whose `code` field is present and different from
200 throws an `ApiError`; otherwise the body's `data` field is
returned. -/
def responseInterceptor {α : Type} (r : AxiosResponse α) :
    Except (ApiErrorData α) (Option α) :=
  if r.status = 204 then Except.ok none
  else
    match r.body with
    | none => Except.ok none
    | some b =>
      match b.code with
      | some c =>
        if c ≠ 200 then Except.error ⟨envelopeErrorMessage b, r.status, some b⟩
        else Except.ok b.data
      | none => Except.ok b.data

/-! ## Cron Evaluator

Modelled from the spec: the evaluator (croniter inside the missing
backend) is specified in §4.1 and §6 — 5-field
(`minute hour day month weekday`) or 6-field (leading seconds) cron
strings; each field supports `*`, ranges `a-b`, steps `*/n` and
comma-separated lists; `weekday` runs 0–6 with 0 = Sunday. -/

/-- Split a character list at every occurrence of `c`.  Always returns
at least one (possibly empty) piece. -/
def splitCh (c : Char) : List Char → List (List Char)
  | [] => [[]]
  | x :: xs =>
    let r := splitCh c xs
    if x = c then [] :: r
    else
      match r with
      | [] => [[x]]
      | y :: ys => (x :: y) :: ys

/-- Join character-list pieces with the separator `c`. -/
def joinSep (c : Char) : List (List Char) → List Char
  | [] => []
  | [p] => p
  | p :: ps => p ++ c :: joinSep c ps

/-- The decimal digit character for `d` (`d < 10`). -/
def digitChar (d : Nat) : Char :=
  match d with
  | 0 => '0'
  | 1 => '1'
  | 2 => '2'
  | 3 => '3'
  | 4 => '4'
  | 5 => '5'
  | 6 => '6'
  | 7 => '7'
  | 8 => '8'
  | _ => '9'

/-- Is `c` a decimal digit character? -/
def isDigitCh (c : Char) : Bool :=
  decide (48 ≤ c.toNat) && decide (c.toNat ≤ 57)

/-- Render a numeral below 100 (every cron field value is at most 59,
every step divisor at most 99). -/
def natToChars (n : Nat) : List Char :=
  if n < 10 then [digitChar n]
  else [digitChar (n / 10), digitChar (n % 10)]

/-- Parse a nonempty all-digit character list as a decimal numeral. -/
def parseNat (cs : List Char) : Option Nat :=
  match cs with
  | [] => none
  | _ =>
    if cs.all isDigitCh then
      some (cs.foldl (fun acc c => acc * 10 + (c.toNat - 48)) 0)
    else none

/-- One item of a cron field: `*`, a step `*/n`, a single value, or a
range `a-b`. -/
inductive CronItem where
  | all
  | step (n : Nat)
  | num (a : Nat)
  | range (a b : Nat)
deriving DecidableEq, Repr

/-- Does a cron item match the field value `v`?  `lo` is the field's
lower bound (0 for second/minute/hour/weekday, 1 for day/month), the
anchor of `*/n` steps. -/
def itemMatches (lo : Nat) (it : CronItem) (v : Nat) : Bool :=
  match it with
  | CronItem.all => true
  | CronItem.step n => (v - lo) % n == 0
  | CronItem.num a => v == a
  | CronItem.range a b => decide (a ≤ v) && decide (v ≤ b)

/-- A field matches when any of its comma-separated items does. -/
def fieldMatches (lo : Nat) (f : List CronItem) (v : Nat) : Bool :=
  f.any (fun it => itemMatches lo it v)

/-- A parsed cron schedule: one item list per field.  A 5-field
expression gets the implicit seconds field `[num 0]` (minute-level
firing at second zero). -/
structure CronSchedule where
  seconds : List CronItem
  minutes : List CronItem
  hours : List CronItem
  days : List CronItem
  months : List CronItem
  weekdays : List CronItem
deriving DecidableEq, Repr

/-- The broken-down components of a wall-clock instant; `weekday` runs
0–6 with 0 = Sunday. -/
structure TimeParts where
  second : Nat
  minute : Nat
  hour : Nat
  day : Nat
  month : Nat
  weekday : Nat
deriving DecidableEq, Repr

/-- Does the schedule fire at this instant?  Pure and total: two calls
with identical inputs give identical output (spec §4.1). -/
def cronMatches (c : CronSchedule) (t : TimeParts) : Bool :=
  fieldMatches 0 c.seconds t.second &&
  fieldMatches 0 c.minutes t.minute &&
  fieldMatches 0 c.hours t.hour &&
  fieldMatches 1 c.days t.day &&
  fieldMatches 1 c.months t.month &&
  fieldMatches 0 c.weekdays t.weekday

/-- `isDue` over the just-elapsed polling window, given as the list of
instants in `[lastTick, now)` (spec §4.1). -/
def isDue (c : CronSchedule) (window : List TimeParts) : Bool :=
  window.any (cronMatches c)

/-- Parse one item of a field with bounds `lo`–`hi`: `*`, `*/n` with
`n > 0`, a bounded numeral, or a bounded range. -/
def parseItem (lo hi : Nat) (cs : List Char) : Option CronItem :=
  if cs = ['*'] then some CronItem.all
  else
    match splitCh '/' cs with
    | [base, stepStr] =>
      if base = ['*'] then
        match parseNat stepStr with
        | some n => if n = 0 then none else some (CronItem.step n)
        | none => none
      else none
    | [single] =>
      match splitCh '-' single with
      | [a, b] =>
        match parseNat a, parseNat b with
        | some x, some y =>
          if lo ≤ x ∧ x ≤ y ∧ y ≤ hi then some (CronItem.range x y) else none
        | _, _ => none
      | [a] =>
        match parseNat a with
        | some x => if lo ≤ x ∧ x ≤ hi then some (CronItem.num x) else none
        | none => none
      | _ => none
    | _ => none

/-- Parse a whole field: a comma-separated, nonempty item list. -/
def parseField (lo hi : Nat) (cs : List Char) : Option (List CronItem) :=
  List.mapM (parseItem lo hi) (splitCh ',' cs)

/-- Modelled from the spec: cron-string parsing.  Whitespace-split the
expression; 5 fields are `minute hour day month weekday` with an
implicit seconds field of `0`; 6 fields carry a leading seconds field;
anything else, or any malformed field, is a `ScheduleError` surfaced
at task-save time (spec §4.1, §6). -/
def cronParseFields (fields : List (List Char)) : Except String CronSchedule :=
  match fields with
  | [mi, h, d, mo, w] =>
    match parseField 0 59 mi, parseField 0 23 h, parseField 1 31 d,
        parseField 1 12 mo, parseField 0 6 w with
    | some fmi, some fh, some fd, some fmo, some fw =>
      Except.ok ⟨[CronItem.num 0], fmi, fh, fd, fmo, fw⟩
    | _, _, _, _, _ => Except.error "ScheduleError: invalid cron expression"
  | [sec, mi, h, d, mo, w] =>
    match parseField 0 59 sec, parseField 0 59 mi, parseField 0 23 h,
        parseField 1 31 d, parseField 1 12 mo, parseField 0 6 w with
    | some fs, some fmi, some fh, some fd, some fmo, some fw =>
      Except.ok ⟨fs, fmi, fh, fd, fmo, fw⟩
    | _, _, _, _, _, _ => Except.error "ScheduleError: invalid cron expression"
  | _ => Except.error "ScheduleError: expected 5 or 6 fields"

/-- Modelled from the spec: parse a cron string by whitespace-splitting
it into its fields (spec §4.1, §6). -/
def cronParse (s : String) : Except String CronSchedule :=
  cronParseFields ((splitCh ' ' s.data).filter (fun cs => !cs.isEmpty))

/-- Render one item back to its concrete cron text. -/
def renderItem : CronItem → List Char
  | CronItem.all => ['*']
  | CronItem.step n => '*' :: '/' :: natToChars n
  | CronItem.num a => natToChars a
  | CronItem.range a b => natToChars a ++ '-' :: natToChars b

/-- Render a field as its comma-separated items. -/
def renderField (f : List CronItem) : List Char :=
  joinSep ',' (List.map renderItem f)

/-- Render a whole expression as its space-separated fields. -/
def renderExpr (fields : List (List CronItem)) : String :=
  ⟨joinSep ' ' (List.map renderField fields)⟩

/-- Well-formedness of one item against field bounds `lo`–`hi`: the
syntactic side conditions of the spec's field grammar. -/
def itemWF (lo hi : Nat) : CronItem → Prop
  | CronItem.all => True
  | CronItem.step n => 0 < n ∧ n < 100
  | CronItem.num a => lo ≤ a ∧ a ≤ hi
  | CronItem.range a b => lo ≤ a ∧ a ≤ b ∧ b ≤ hi

instance (lo hi : Nat) (it : CronItem) : Decidable (itemWF lo hi it) := by
  cases it <;> simp only [itemWF] <;> infer_instance

/-- Well-formedness of a field: nonempty, with every item
well-formed. -/
def fieldWF (lo hi : Nat) (f : List CronItem) : Prop :=
  f ≠ [] ∧ ∀ it ∈ f, itemWF lo hi it

instance (lo hi : Nat) (f : List CronItem) : Decidable (fieldWF lo hi f) := by
  unfold fieldWF; infer_instance

/-- A syntactically valid 5-field expression, as its per-field item
lists: `minute hour day month weekday`. -/
def validCron5 (mi h d mo w : List CronItem) : Prop :=
  fieldWF 0 59 mi ∧ fieldWF 0 23 h ∧ fieldWF 1 31 d ∧
    fieldWF 1 12 mo ∧ fieldWF 0 6 w

instance (mi h d mo w : List CronItem) : Decidable (validCron5 mi h d mo w) := by
  unfold validCron5; infer_instance

/-! ## Theorems -/

theorem lookup_eq_none_iff (st : Registry) (id : Nat) :
    Registry.lookup st id = none ↔ id ∉ List.map Prod.fst st := by
  induction st with
  | nil => simp [Registry.lookup]
  | cons p rest ih =>
    rcases p with ⟨k, hnd⟩
    by_cases hk : k = id <;> simp [Registry.lookup, hk, ih, Ne.symm]

theorem tryAcquire_busy (st : Registry) (id : Nat) (hd : RunHandle)
    (hlive : Registry.lookup st id = some hd) : tryAcquire st id = (none, st) := by
  simp [tryAcquire, hlive]

theorem tryAcquire_WF (st : Registry) (id : Nat) (hwf : Registry.WF st) :
    Registry.WF (tryAcquire st id).2 := by
  unfold tryAcquire
  rcases hl : Registry.lookup st id with _ | hd
  · simp only [Registry.WF, List.map_cons]
    exact List.nodup_cons.mpr ⟨(lookup_eq_none_iff st id).mp hl, hwf⟩
  · exact hwf

theorem release_WF (st : Registry) (id : Nat) (hwf : Registry.WF st) :
    Registry.WF (Registry.release st id) := by
  unfold Registry.WF Registry.release
  exact List.Nodup.sublist (List.Sublist.map Prod.fst (List.filter_sublist st)) hwf

theorem lookup_tryAcquire_preserved (st : Registry) (id id' : Nat) (hd : RunHandle)
    (hlive : Registry.lookup st id = some hd) :
    Registry.lookup (tryAcquire st id').2 id = some hd := by
  unfold tryAcquire
  rcases hl : Registry.lookup st id' with _ | hd'
  · have hne : id' ≠ id := by
      intro he
      rw [he, hlive] at hl
      cases hl
    simp [Registry.lookup, hne, hlive]
  · exact hlive

theorem tick_lookup_preserved (due : List Nat) (st : Registry) (id : Nat)
    (hd : RunHandle) (hlive : Registry.lookup st id = some hd) :
    Registry.lookup (schedulerTick st due).1 id = some hd := by
  induction due generalizing st with
  | nil => exact hlive
  | cons d rest ih =>
    have hpres := lookup_tryAcquire_preserved st id d hd hlive
    unfold schedulerTick
    rcases hacq : tryAcquire st d with ⟨_ | h0, st1⟩
    · rw [hacq] at hpres
      exact ih st1 hpres
    · rw [hacq] at hpres
      simpa using ih st1 hpres

theorem tick_WF (due : List Nat) (st : Registry) (hwf : Registry.WF st) :
    Registry.WF (schedulerTick st due).1 := by
  induction due generalizing st with
  | nil => exact hwf
  | cons d rest ih =>
    have hwf1 := tryAcquire_WF st d hwf
    unfold schedulerTick
    rcases hacq : tryAcquire st d with ⟨_ | h0, st1⟩
    · rw [hacq] at hwf1
      exact ih st1 hwf1
    · rw [hacq] at hwf1
      simpa using ih st1 hwf1

theorem tick_no_execution_for_live (due : List Nat) (st : Registry) (id : Nat)
    (hd : RunHandle) (hlive : Registry.lookup st id = some hd) :
    List.filter (fun e => e.task_id == id) (schedulerTick st due).2 = [] := by
  induction due generalizing st with
  | nil => rfl
  | cons d rest ih =>
    unfold schedulerTick
    rcases hacq : tryAcquire st d with ⟨acq, st1⟩
    have hpres : Registry.lookup st1 id = some hd := by
      have := lookup_tryAcquire_preserved st id d hd hlive
      rw [hacq] at this
      exact this
    rcases acq with _ | h0
    · exact ih st1 hpres
    · have hne : d ≠ id := by
        intro he
        rw [← he] at hlive
        rw [tryAcquire_busy st d hd hlive] at hacq
        cases hacq
      simp only [List.filter]
      have : (DispatchedExecution.task_id ⟨d, ExecutionStatus.pending⟩ == id) = false := by
        simpa using hne
      rw [this]
      exact ih st1 hpres

theorem retryGo_ne_nil (results : Nat → ExecutionStatus) (idx b : Nat) :
    retryGo results idx b ≠ [] := by
  cases b <;> simp [retryGo]

theorem retryGo_length (results : Nat → ExecutionStatus) (b idx : Nat) :
    (retryGo results idx b).length ≤ b + 1 := by
  induction b generalizing idx with
  | zero => simp [retryGo]
  | succ b ih =>
    simp only [retryGo, List.length_cons]
    split
    · have := ih (idx + 1)
      omega
    · simp

theorem retryGo_dropLast_all (results : Nat → ExecutionStatus) (b idx : Nat) :
    ((retryGo results idx b).dropLast.all fun p => shouldRetry p.2) = true := by
  induction b generalizing idx with
  | zero => simp [retryGo]
  | succ b ih =>
    simp only [retryGo]
    rcases hr : shouldRetry (results idx) with _ | _
    · simp
    · rw [if_pos rfl]
      rcases hgo : retryGo results (idx + 1) b with _ | ⟨p, ps⟩
      · exact absurd hgo (retryGo_ne_nil results (idx + 1) b)
      · have := ih (idx + 1)
        rw [hgo] at this
        simp only [List.dropLast_cons₂, List.all_cons, this, hr, Bool.and_true]

theorem retryGo_map_fst (results : Nat → ExecutionStatus) (b idx : Nat) :
    (retryGo results idx b).map Prod.fst =
      List.range' idx (retryGo results idx b).length := by
  induction b generalizing idx with
  | zero => simp [retryGo, List.range']
  | succ b ih =>
    simp only [retryGo]
    split
    · simp only [List.map_cons, List.length_cons, List.range']
      rw [ih (idx + 1)]
    · simp [List.range']

theorem retryTraceGo_eq (results : Nat → ExecutionStatus) (ri : Nat) (b idx : Nat) :
    retryTraceGo results ri idx b =
      List.intersperse (RetryAction.sleep ri)
        ((retryGo results idx b).map fun p => RetryAction.run p.1) := by
  induction b generalizing idx with
  | zero => simp [retryTraceGo, retryGo]
  | succ b ih =>
    simp only [retryTraceGo, retryGo]
    rcases hr : shouldRetry (results idx) with _ | _
    · simp
    · rw [if_pos rfl, if_pos rfl]
      rcases hgo : retryGo results (idx + 1) b with _ | ⟨p, ps⟩
      · exact absurd hgo (retryGo_ne_nil results (idx + 1) b)
      · rw [ih (idx + 1), hgo]
        simp [List.intersperse_cons_cons]

theorem natToChars_spec : ∀ n < 100, parseNat (natToChars n) = some n := by
  decide

theorem natToChars_ne_nil : ∀ n < 100, natToChars n ≠ [] := by
  decide

theorem natToChars_chars : ∀ n < 100, ' ' ∉ natToChars n ∧ ',' ∉ natToChars n ∧
    '-' ∉ natToChars n ∧ '/' ∉ natToChars n ∧ '*' ∉ natToChars n := by
  decide

theorem splitCh_not_mem (c : Char) (cs : List Char) (h : c ∉ cs) :
    splitCh c cs = [cs] := by
  induction cs with
  | nil => rfl
  | cons x xs ih =>
    simp only [List.mem_cons, not_or] at h
    obtain ⟨hx, hxs⟩ := h
    simp only [splitCh]
    rw [ih hxs, if_neg (fun he : x = c => hx he.symm)]

theorem splitCh_append (c : Char) (p rest : List Char) (h : c ∉ p) :
    splitCh c (p ++ c :: rest) = p :: splitCh c rest := by
  induction p with
  | nil => simp [splitCh]
  | cons x xs ih =>
    simp only [List.mem_cons, not_or] at h
    obtain ⟨hx, hxs⟩ := h
    simp only [List.cons_append, splitCh, List.append_eq]
    rw [ih hxs, if_neg (fun he : x = c => hx he.symm)]

theorem splitCh_joinSep (c : Char) (ps : List (List Char)) (hne : ps ≠ [])
    (h : ∀ p ∈ ps, c ∉ p) : splitCh c (joinSep c ps) = ps := by
  induction ps with
  | nil => exact absurd rfl hne
  | cons p qs ih =>
    rcases qs with _ | ⟨q, qs⟩
    · simp only [joinSep]
      exact splitCh_not_mem c p (h p (by simp))
    · simp only [joinSep]
      rw [splitCh_append c p _ (h p (by simp)),
        ih (by simp) (fun r hr => h r (List.mem_cons_of_mem p hr))]

theorem mem_joinSep (c x : Char) (ps : List (List Char)) (hx : x ∈ joinSep c ps) :
    x = c ∨ ∃ p ∈ ps, x ∈ p := by
  induction ps with
  | nil => simp [joinSep] at hx
  | cons p qs ih =>
    rcases qs with _ | ⟨q, qs⟩
    · simp only [joinSep] at hx
      exact Or.inr ⟨p, by simp, hx⟩
    · simp only [joinSep, List.mem_append, List.mem_cons] at hx
      rcases hx with hp | hc | hrest
      · exact Or.inr ⟨p, by simp, hp⟩
      · exact Or.inl hc
      · rcases ih hrest with h1 | ⟨r, hr, hxr⟩
        · exact Or.inl h1
        · exact Or.inr ⟨r, List.mem_cons_of_mem p hr, hxr⟩

theorem joinSep_ne_nil (c : Char) (ps : List (List Char)) (hne : ps ≠ [])
    (hp : ∀ p ∈ ps, p ≠ []) : joinSep c ps ≠ [] := by
  rcases ps with _ | ⟨p, qs⟩
  · exact absurd rfl hne
  · rcases qs with _ | ⟨q, qs⟩
    · exact hp p (by simp)
    · simp [joinSep]

theorem not_mem_renderItem (lo hi : Nat) (it : CronItem) (hwf : itemWF lo hi it)
    (hhi : hi < 100) : ' ' ∉ renderItem it ∧ ',' ∉ renderItem it := by
  cases it with
  | all => exact ⟨by decide, by decide⟩
  | step n =>
    obtain ⟨h1, h2⟩ := hwf
    have hch := natToChars_chars n h2
    simp only [renderItem, List.mem_cons, not_or]
    exact ⟨⟨by decide, by decide, hch.1⟩, ⟨by decide, by decide, hch.2.1⟩⟩
  | num a =>
    obtain ⟨h1, h2⟩ := hwf
    have hch := natToChars_chars a (by omega)
    exact ⟨hch.1, hch.2.1⟩
  | range a b =>
    obtain ⟨h1, h2, h3⟩ := hwf
    have ha := natToChars_chars a (by omega)
    have hb := natToChars_chars b (by omega)
    simp only [renderItem, List.mem_append, List.mem_cons, not_or]
    exact ⟨⟨ha.1, by decide, hb.1⟩, ⟨ha.2.1, by decide, hb.2.1⟩⟩

theorem renderItem_ne_nil (lo hi : Nat) (it : CronItem) (hwf : itemWF lo hi it)
    (hhi : hi < 100) : renderItem it ≠ [] := by
  cases it with
  | all => decide
  | step n => simp [renderItem]
  | num a =>
    obtain ⟨h1, h2⟩ := hwf
    exact natToChars_ne_nil a (by omega)
  | range a b => simp [renderItem]

theorem parseItem_renderItem (lo hi : Nat) (it : CronItem)
    (hwf : itemWF lo hi it) (hhi : hi < 100) :
    parseItem lo hi (renderItem it) = some it := by
  cases it with
  | all => rfl
  | step n =>
    obtain ⟨hpos, hlt⟩ := hwf
    have hch := natToChars_chars n hlt
    have hsplit : splitCh '/' ('*' :: '/' :: natToChars n) =
        [['*'], natToChars n] := by
      have h1 := splitCh_append '/' ['*'] (natToChars n) (by decide)
      rw [splitCh_not_mem '/' (natToChars n) hch.2.2.2.1] at h1
      simpa using h1
    have hne1 : ¬('*' :: '/' :: natToChars n = ['*']) := by simp
    simp only [renderItem, parseItem]
    rw [if_neg hne1, hsplit]
    simp only [natToChars_spec n hlt]
    rw [if_neg (by omega : ¬n = 0)]
    rfl
  | num a =>
    obtain ⟨h1, h2⟩ := hwf
    have ha : a < 100 := by omega
    have hch := natToChars_chars a ha
    have hner : ¬(natToChars a = ['*']) := by
      intro he
      exact hch.2.2.2.2 (by rw [he]; exact List.mem_singleton.mpr rfl)
    simp only [renderItem, parseItem]
    rw [if_neg hner, splitCh_not_mem '/' (natToChars a) hch.2.2.2.1]
    simp only [splitCh_not_mem '-' (natToChars a) hch.2.2.1, natToChars_spec a ha]
    rw [if_pos ⟨h1, h2⟩]
  | range a b =>
    obtain ⟨h1, h2, h3⟩ := hwf
    have ha : a < 100 := by omega
    have hb : b < 100 := by omega
    have hcha := natToChars_chars a ha
    have hchb := natToChars_chars b hb
    have hslash : '/' ∉ natToChars a ++ '-' :: natToChars b := by
      simp only [List.mem_append, List.mem_cons, not_or]
      exact ⟨hcha.2.2.2.1, by decide, hchb.2.2.2.1⟩
    have hstar : ¬(natToChars a ++ '-' :: natToChars b = ['*']) := by
      intro he
      have : '*' ∈ natToChars a ++ '-' :: natToChars b := by
        rw [he]; exact List.mem_singleton.mpr rfl
      simp only [List.mem_append, List.mem_cons] at this
      rcases this with hm | hm | hm
      · exact hcha.2.2.2.2 hm
      · cases hm
      · exact hchb.2.2.2.2 hm
    have hdash : splitCh '-' (natToChars a ++ '-' :: natToChars b) =
        [natToChars a, natToChars b] := by
      have h4 := splitCh_append '-' (natToChars a) (natToChars b) hcha.2.2.1
      rw [splitCh_not_mem '-' (natToChars b) hchb.2.2.1] at h4
      exact h4
    simp only [renderItem, parseItem]
    rw [if_neg hstar, splitCh_not_mem '/' _ hslash]
    simp only [hdash, natToChars_spec a ha, natToChars_spec b hb]
    rw [if_pos ⟨h1, h2, h3⟩]

theorem mapM_parseItem_map (lo hi : Nat) (f : List CronItem)
    (hwf : ∀ it ∈ f, itemWF lo hi it) (hhi : hi < 100) :
    List.mapM (parseItem lo hi) (f.map renderItem) = some f := by
  induction f with
  | nil => rfl
  | cons it g ih =>
    simp only [List.map_cons, List.mapM_cons,
      parseItem_renderItem lo hi it (hwf it (by simp)) hhi,
      ih (fun j hj => hwf j (List.mem_cons_of_mem it hj))]
    rfl

theorem parseField_renderField (lo hi : Nat) (f : List CronItem)
    (hwf : fieldWF lo hi f) (hhi : hi < 100) :
    parseField lo hi (renderField f) = some f := by
  obtain ⟨hne, hits⟩ := hwf
  have hmem : ∀ p ∈ f.map renderItem, ',' ∉ p := by
    intro p hp
    obtain ⟨it, hit, rfl⟩ := List.mem_map.mp hp
    exact (not_mem_renderItem lo hi it (hits it hit) hhi).2
  unfold parseField renderField
  rw [splitCh_joinSep ',' (f.map renderItem) (by simpa using hne) hmem]
  exact mapM_parseItem_map lo hi f hits hhi

theorem renderField_ne_nil (lo hi : Nat) (f : List CronItem)
    (hwf : fieldWF lo hi f) (hhi : hi < 100) : renderField f ≠ [] := by
  apply joinSep_ne_nil
  · simpa using hwf.1
  · intro p hp
    obtain ⟨it, hit, rfl⟩ := List.mem_map.mp hp
    exact renderItem_ne_nil lo hi it (hwf.2 it hit) hhi

theorem space_not_mem_renderField (lo hi : Nat) (f : List CronItem)
    (hwf : fieldWF lo hi f) (hhi : hi < 100) : ' ' ∉ renderField f := by
  intro hm
  rcases mem_joinSep ',' ' ' _ hm with he | ⟨p, hp, hxp⟩
  · exact absurd he (by decide)
  · obtain ⟨it, hit, rfl⟩ := List.mem_map.mp hp
    exact (not_mem_renderItem lo hi it (hwf.2 it hit) hhi).1 hxp

theorem notEmpty_of_ne_nil (q : List Char) (hq : q ≠ []) : (!q.isEmpty) = true := by
  cases q with
  | nil => exact absurd rfl hq
  | cons x xs => rfl

theorem cronParse_renderExpr_five (mi h d mo w : List CronItem)
    (h5 : validCron5 mi h d mo w) :
    cronParse (renderExpr [mi, h, d, mo, w]) =
      Except.ok ⟨[CronItem.num 0], mi, h, d, mo, w⟩ := by
  obtain ⟨hmi, hh, hd, hmo, hw⟩ := h5
  have hsplit : splitCh ' ' (joinSep ' '
      (List.map renderField [mi, h, d, mo, w])) =
      List.map renderField [mi, h, d, mo, w] := by
    apply splitCh_joinSep
    · simp
    · intro p hp
      simp only [List.map_cons, List.map_nil, List.mem_cons] at hp
      rcases hp with rfl | rfl | rfl | rfl | rfl | hf
      · exact space_not_mem_renderField 0 59 mi hmi (by omega)
      · exact space_not_mem_renderField 0 23 h hh (by omega)
      · exact space_not_mem_renderField 1 31 d hd (by omega)
      · exact space_not_mem_renderField 1 12 mo hmo (by omega)
      · exact space_not_mem_renderField 0 6 w hw (by omega)
      · simp at hf
  have hfilter : List.filter (fun cs => !cs.isEmpty)
      (List.map renderField [mi, h, d, mo, w]) =
      List.map renderField [mi, h, d, mo, w] := by
    apply List.filter_eq_self.mpr
    intro p hp
    simp only [List.map_cons, List.map_nil, List.mem_cons] at hp
    rcases hp with rfl | rfl | rfl | rfl | rfl | hf
    · exact notEmpty_of_ne_nil _ (renderField_ne_nil 0 59 mi hmi (by omega))
    · exact notEmpty_of_ne_nil _ (renderField_ne_nil 0 23 h hh (by omega))
    · exact notEmpty_of_ne_nil _ (renderField_ne_nil 1 31 d hd (by omega))
    · exact notEmpty_of_ne_nil _ (renderField_ne_nil 1 12 mo hmo (by omega))
    · exact notEmpty_of_ne_nil _ (renderField_ne_nil 0 6 w hw (by omega))
    · simp at hf
  unfold cronParse renderExpr
  rw [show (String.mk (joinSep ' ' (List.map renderField [mi, h, d, mo, w]))).data =
      joinSep ' ' (List.map renderField [mi, h, d, mo, w]) from rfl]
  rw [hsplit, hfilter]
  simp only [List.map_cons, List.map_nil, cronParseFields,
    parseField_renderField 0 59 mi hmi (by omega),
    parseField_renderField 0 23 h hh (by omega),
    parseField_renderField 1 31 d hd (by omega),
    parseField_renderField 1 12 mo hmo (by omega),
    parseField_renderField 0 6 w hw (by omega)]

theorem cronParse_renderExpr_six (s6 mi h d mo w : List CronItem)
    (h6 : fieldWF 0 59 s6) (h5 : validCron5 mi h d mo w) :
    cronParse (renderExpr [s6, mi, h, d, mo, w]) =
      Except.ok ⟨s6, mi, h, d, mo, w⟩ := by
  obtain ⟨hmi, hh, hd, hmo, hw⟩ := h5
  have hsplit : splitCh ' ' (joinSep ' '
      (List.map renderField [s6, mi, h, d, mo, w])) =
      List.map renderField [s6, mi, h, d, mo, w] := by
    apply splitCh_joinSep
    · simp
    · intro p hp
      simp only [List.map_cons, List.map_nil, List.mem_cons] at hp
      rcases hp with rfl | rfl | rfl | rfl | rfl | rfl | hf
      · exact space_not_mem_renderField 0 59 s6 h6 (by omega)
      · exact space_not_mem_renderField 0 59 mi hmi (by omega)
      · exact space_not_mem_renderField 0 23 h hh (by omega)
      · exact space_not_mem_renderField 1 31 d hd (by omega)
      · exact space_not_mem_renderField 1 12 mo hmo (by omega)
      · exact space_not_mem_renderField 0 6 w hw (by omega)
      · simp at hf
  have hfilter : List.filter (fun cs => !cs.isEmpty)
      (List.map renderField [s6, mi, h, d, mo, w]) =
      List.map renderField [s6, mi, h, d, mo, w] := by
    apply List.filter_eq_self.mpr
    intro p hp
    simp only [List.map_cons, List.map_nil, List.mem_cons] at hp
    rcases hp with rfl | rfl | rfl | rfl | rfl | rfl | hf
    · exact notEmpty_of_ne_nil _ (renderField_ne_nil 0 59 s6 h6 (by omega))
    · exact notEmpty_of_ne_nil _ (renderField_ne_nil 0 59 mi hmi (by omega))
    · exact notEmpty_of_ne_nil _ (renderField_ne_nil 0 23 h hh (by omega))
    · exact notEmpty_of_ne_nil _ (renderField_ne_nil 1 31 d hd (by omega))
    · exact notEmpty_of_ne_nil _ (renderField_ne_nil 1 12 mo hmo (by omega))
    · exact notEmpty_of_ne_nil _ (renderField_ne_nil 0 6 w hw (by omega))
    · simp at hf
  unfold cronParse renderExpr
  rw [show (String.mk (joinSep ' ' (List.map renderField [s6, mi, h, d, mo, w]))).data =
      joinSep ' ' (List.map renderField [s6, mi, h, d, mo, w]) from rfl]
  rw [hsplit, hfilter]
  simp only [List.map_cons, List.map_nil, cronParseFields,
    parseField_renderField 0 59 s6 h6 (by omega),
    parseField_renderField 0 59 mi hmi (by omega),
    parseField_renderField 0 23 h hh (by omega),
    parseField_renderField 1 31 d hd (by omega),
    parseField_renderField 1 12 mo hmo (by omega),
    parseField_renderField 0 6 w hw (by omega)]

/-- C6: The Cron Evaluator accepts both the 5-field
(`minute hour day month weekday`) and the 6-field (leading seconds)
forms with `*`, range, step and list items and weekday bounds 0–6
(0 = Sunday): every syntactically valid expression of either form
parses successfully into a schedule (the 5-field form firing at second
zero), and due fire times are then computed — `isDue` over a polling
window holds exactly when some instant of the window matches the
schedule. -/
theorem cronEvaluator_accepts_five_and_six_field
    (s6 mi h d mo w : List CronItem)
    (h6 : fieldWF 0 59 s6) (h5 : validCron5 mi h d mo w) :
    cronParse (renderExpr [mi, h, d, mo, w]) =
      Except.ok ⟨[CronItem.num 0], mi, h, d, mo, w⟩ ∧
    cronParse (renderExpr [s6, mi, h, d, mo, w]) =
      Except.ok ⟨s6, mi, h, d, mo, w⟩ ∧
    (∀ (c : CronSchedule) (window : List TimeParts),
      isDue c window = true ↔ ∃ t ∈ window, cronMatches c t = true) :=
  ⟨cronParse_renderExpr_five mi h d mo w h5,
    cronParse_renderExpr_six s6 mi h d mo w h6 h5,
    fun c window => by simp [isDue, List.any_eq_true]⟩

/-- Closed instance of `cronEvaluator_accepts_five_and_six_field`: the
frontend's 5-field placeholder expression and the README's 6-field
"every Sunday 02:30" example both parse. -/
theorem cronEvaluator_accepts_five_and_six_field_witness :
    cronParse "*/5 * * * *" =
      Except.ok ⟨[CronItem.num 0], [CronItem.step 5], [CronItem.all],
        [CronItem.all], [CronItem.all], [CronItem.all]⟩ ∧
    cronParse "0 30 2 * * 0" =
      Except.ok ⟨[CronItem.num 0], [CronItem.num 30], [CronItem.num 2],
        [CronItem.all], [CronItem.all], [CronItem.num 0]⟩ := by
  constructor
  · exact (cronEvaluator_accepts_five_and_six_field
      [CronItem.all] [CronItem.step 5] [CronItem.all] [CronItem.all]
      [CronItem.all] [CronItem.all] (by decide) (by decide)).1
  · exact (cronEvaluator_accepts_five_and_six_field
      [CronItem.num 0] [CronItem.num 30] [CronItem.num 2] [CronItem.all]
      [CronItem.all] [CronItem.num 0] (by decide) (by decide)).2.1

/-- C5 counterexample: the claim that every configured notification
target carries a delivery policy drawn from {never, always,
failure-only} fails on the code.  The repository's own example target
(the webhook configured in `src/unnamed/part_001`) has no policy
component: the stored schema's columns are exactly id, notify_type,
config, created_at, updated_at — no policy column — and the only
enumerated per-target domain, `NotifyType`, is {webhook, telegram,
dingtalk}, which is not the claimed policy domain and does not contain
any of its values. -/
theorem notificationPolicy_counterexample :
    (NotificationSchema.notify_type
        ⟨NotifyType.webhook, NotificationConfig.webhook "http://example.com"⟩).value
      ∉ specDeliveryPolicyValues ∧
    notifyTypeValues ≠ specDeliveryPolicyValues ∧
    "never" ∉ notifyTypeValues ∧ "always" ∉ notifyTypeValues ∧
    "failure-only" ∉ notifyTypeValues ∧
    "policy" ∉ cmNotificationsColumns ∧
    "delivery_policy" ∉ cmNotificationsColumns := by
  refine ⟨?_, by decide, by decide, by decide, by decide, by decide, by decide⟩
  decide

/-- C5 amended: every notification target configured on a task is
exactly a `notify_type` drawn from {webhook, telegram, dingtalk} plus
a type-shaped `config` — two targets agreeing on these agree entirely,
so the schema carries no per-target delivery-policy field, and in
particular no policy drawn from {never, always, failure-only}. -/
theorem notificationTarget_shape (t : NotificationSchema) :
    (t.notify_type = NotifyType.webhook ∨ t.notify_type = NotifyType.telegram ∨
      t.notify_type = NotifyType.dingtalk) ∧
    t.notify_type.value ∈ notifyTypeValues ∧
    t.notify_type.value ∉ specDeliveryPolicyValues ∧
    (∀ t' : NotificationSchema,
      t.notify_type = t'.notify_type → t.config = t'.config → t = t') := by
  refine ⟨?_, ?_, ?_, ?_⟩
  · rcases t with ⟨ty, cfg⟩
    cases ty <;> simp
  · rcases t with ⟨ty, cfg⟩
    cases ty <;> simp [NotifyType.value, notifyTypeValues]
  · rcases t with ⟨ty, cfg⟩
    cases ty <;> simp [NotifyType.value, specDeliveryPolicyValues]
  · intro t' hty hcfg
    rcases t with ⟨ty, cfg⟩
    rcases t' with ⟨ty', cfg'⟩
    cases hty
    cases hcfg
    rfl

/-- Closed instance of `notificationTarget_shape`: two concrete
webhook targets with the same config are the same target — there is no
further (policy) field on which they could differ. -/
theorem notificationTarget_shape_witness :
    (⟨NotifyType.webhook, NotificationConfig.webhook "http://example.com"⟩ :
        NotificationSchema) =
      ⟨NotifyType.webhook, NotificationConfig.webhook "http://example.com"⟩ :=
  (notificationTarget_shape
      ⟨NotifyType.webhook, NotificationConfig.webhook "http://example.com"⟩).2.2.2
    ⟨NotifyType.webhook, NotificationConfig.webhook "http://example.com"⟩ rfl rfl

/-- C2: A firing's retry sequence has at most `retry_count + 1`
attempts; every attempt except the last resulted in `failed` or
`timeout` (so a further attempt happens only after `failed` or
`timeout`, and the sequence stops at the first `success` or
`cancelled` or when the budget runs out); the attempt indices are
consecutive from 0; and the firing's timeline is exactly the attempt
runs separated by single sleeps of `retry_interval` seconds. -/
theorem retryController_spec (results : Nat → ExecutionStatus)
    (retry_count retry_interval : Nat) :
    (retrySequence results retry_count).length ≤ retry_count + 1 ∧
    ((retrySequence results retry_count).dropLast.all fun p => shouldRetry p.2) = true ∧
    (retrySequence results retry_count).map Prod.fst =
      List.range (retrySequence results retry_count).length ∧
    retryTrace results retry_count retry_interval =
      List.intersperse (RetryAction.sleep retry_interval)
        ((retrySequence results retry_count).map fun p => RetryAction.run p.1) := by
  refine ⟨retryGo_length results retry_count 0,
    retryGo_dropLast_all results retry_count 0, ?_,
    retryTraceGo_eq results retry_interval retry_count 0⟩
  rw [List.range_eq_range']
  exact retryGo_map_fst results retry_count 0

/-- C1: At most one live Run Handle exists per task id (`Registry.WF`
is preserved by acquire, release and the scheduler tick), and while a
task has an in-flight execution a second `tryAcquire` for its id fails
with busy (`none`) leaving the registry unchanged, and the tick that
attempted it produces zero new Executions for that task — the firing
is skipped, not queued (the tick keeps no queue) and not errored (the
tick returns normally). -/
theorem runHandle_single_and_busy_skip (st : Registry) (id : Nat) (hd : RunHandle)
    (hlive : Registry.lookup st id = some hd) (hwf : Registry.WF st)
    (due : List Nat) :
    tryAcquire st id = (none, st) ∧
    List.filter (fun e => e.task_id == id) (schedulerTick st due).2 = [] ∧
    Registry.WF (schedulerTick st due).1 ∧
    (∀ id', Registry.WF (tryAcquire st id').2) ∧
    Registry.WF (Registry.release st id) :=
  ⟨tryAcquire_busy st id hd hlive,
    tick_no_execution_for_live due st id hd hlive,
    tick_WF due st hwf,
    fun id' => tryAcquire_WF st id' hwf,
    release_WF st id hwf⟩

/-- Closed instance of `runHandle_single_and_busy_skip`: task 1 has a
live handle; a tick whose due list fires task 1 twice and task 2 once
creates no Execution for task 1 and keeps the single-handle
invariant. -/
theorem runHandle_single_and_busy_skip_witness :
    tryAcquire [(1, (⟨false⟩ : RunHandle))] 1 = (none, [(1, (⟨false⟩ : RunHandle))]) ∧
    List.filter (fun e => e.task_id == 1)
        (schedulerTick [(1, (⟨false⟩ : RunHandle))] [1, 2, 1]).2 = [] ∧
    Registry.WF (schedulerTick [(1, (⟨false⟩ : RunHandle))] [1, 2, 1]).1 ∧
    (∀ id', Registry.WF (tryAcquire [(1, (⟨false⟩ : RunHandle))] id').2) ∧
    Registry.WF (Registry.release [(1, (⟨false⟩ : RunHandle))] 1) :=
  runHandle_single_and_busy_skip [(1, (⟨false⟩ : RunHandle))] 1 ⟨false⟩ rfl
    (by simp [Registry.WF]) [1, 2, 1]

/-- C4: The Execution status domain is exactly the six values
`pending`, `running`, `success`, `failed`, `timeout`, `cancelled`:
every status is one of these six enum members, the attached string
values are exactly those six strings, and `getStatusBadge` renders a
badge for each with no other case. -/
theorem executionStatus_exactly_six (s : ExecutionStatus) :
    (s = ExecutionStatus.pending ∨ s = ExecutionStatus.running ∨
      s = ExecutionStatus.success ∨ s = ExecutionStatus.failed ∨
      s = ExecutionStatus.timeout ∨ s = ExecutionStatus.cancelled) ∧
    s.value ∈ ["pending", "running", "success", "failed", "timeout", "cancelled"] ∧
    (getStatusBadge s).label ∈ ["等待中", "运行中", "成功", "失败", "超时", "已取消"] := by
  cases s <;> simp [ExecutionStatus.value, getStatusBadge]

/-- C10: The task form's numeric policy inputs are silently coerced:
a non-numeric entry (`parseInt` gives `NaN`, modelled `none`) or an
entry parsing to `0` becomes 3600 for `timeout`, 60 for
`retry_interval` and 0 for `retry_count`; hence `0` can never be
submitted for `timeout` or `retry_interval`; any other parsed value
passes through; and `handleSave` validates only `name`,
`cron_expression` and `command`, so no validation error is shown for
out-of-bounds numbers. -/
theorem taskForm_numeric_coercion (raw : Option Int) :
    timeoutInput none = 3600 ∧ timeoutInput (some 0) = 3600 ∧
    retryIntervalInput none = 60 ∧ retryIntervalInput (some 0) = 60 ∧
    retryCountInput none = 0 ∧ retryCountInput (some 0) = 0 ∧
    timeoutInput raw ≠ 0 ∧ retryIntervalInput raw ≠ 0 ∧
    (∀ v : Int, v ≠ 0 →
      timeoutInput (some v) = v ∧ retryCountInput (some v) = v ∧
        retryIntervalInput (some v) = v) ∧
    "timeout" ∉ taskFormValidatedFields ∧
    "retry_count" ∉ taskFormValidatedFields ∧
    "retry_interval" ∉ taskFormValidatedFields := by
  refine ⟨rfl, rfl, rfl, rfl, rfl, rfl, ?_, ?_, ?_, by decide, by decide, by decide⟩
  · rcases raw with _ | v
    · simp [timeoutInput, coerceNumericInput]
    · simp only [timeoutInput, coerceNumericInput]
      split <;> omega
  · rcases raw with _ | v
    · simp [retryIntervalInput, coerceNumericInput]
    · simp only [retryIntervalInput, coerceNumericInput]
      split <;> omega
  · intro v hv
    simp [timeoutInput, retryCountInput, retryIntervalInput, coerceNumericInput, hv]

/-- Closed instance of `taskForm_numeric_coercion`: a concrete
non-zero entry (17) survives coercion unchanged. -/
theorem taskForm_numeric_coercion_witness :
    timeoutInput (some 17) = 17 ∧ retryCountInput (some 17) = 17 ∧
      retryIntervalInput (some 17) = 17 :=
  ((taskForm_numeric_coercion (some 17)).2.2.2.2.2.2.2.2.1) 17 (by decide)

/-- C7: Task policy fields are validated at creation and at update
with the same bounds, and a request is accepted exactly when
1 ≤ timeout ≤ 3600, 0 ≤ retry_count ≤ 5 and 1 ≤ retry_interval ≤ 600;
any out-of-bounds request fails with an error message. -/
theorem taskPolicy_bounds_validated (p : TaskPolicy) :
    ((createTaskRequest p).isOk = true ↔
      (1 ≤ p.timeout ∧ p.timeout ≤ 3600 ∧ 0 ≤ p.retry_count ∧
        p.retry_count ≤ 5 ∧ 1 ≤ p.retry_interval ∧ p.retry_interval ≤ 600)) ∧
    updateTaskRequest p = createTaskRequest p ∧
    ((createTaskRequest p).isOk = false →
      ∃ msg, createTaskRequest p = Except.error msg) := by
  refine ⟨?_, rfl, ?_⟩
  · unfold createTaskRequest validateTaskPolicy
    split_ifs with h1 h2 h3
    · refine ⟨fun hok => absurd hok (by decide), fun hb => ?_⟩
      exfalso; rcases h1 with h | h <;> omega
    · refine ⟨fun hok => absurd hok (by decide), fun hb => ?_⟩
      exfalso; rcases h2 with h | h <;> omega
    · refine ⟨fun hok => absurd hok (by decide), fun hb => ?_⟩
      exfalso; rcases h3 with h | h <;> omega
    · refine ⟨fun _ => ?_, fun _ => rfl⟩
      push_neg at h1 h2 h3
      omega
  · intro hfail
    rcases hres : createTaskRequest p with msg | q
    · exact ⟨msg, rfl⟩
    · rw [hres] at hfail
      simp [Except.isOk, Except.toBool] at hfail

/-- Closed instance of `taskPolicy_bounds_validated`: a request with
timeout 5000 (out of bounds) is rejected with an error. -/
theorem taskPolicy_bounds_validated_witness :
    ∃ msg, createTaskRequest ⟨5000, 0, 60⟩ = Except.error msg :=
  (taskPolicy_bounds_validated ⟨5000, 0, 60⟩).2.2 (by decide)

/-- C3: If a cancellation signal is observed while an attempt is still
alive (before natural completion and no later than the timeout
deadline), the recorded status is `cancelled` and in particular not
`timeout` — cancellation takes precedence over a concurrently-expiring
timeout. -/
theorem runner_cancellation_precedence (tmo : Nat) (obs : AttemptObservation)
    (tc : Nat) (hc : obs.cancelAt = some tc) (hnat : tc < obs.exitsAt)
    (halive : tc ≤ tmo) :
    runnerOutcome tmo obs = ExecutionStatus.cancelled ∧
      runnerOutcome tmo obs ≠ ExecutionStatus.timeout := by
  have hout : runnerOutcome tmo obs = ExecutionStatus.cancelled := by
    simp only [runnerOutcome, hc]
    rw [if_pos ⟨hnat, halive⟩]
  exact ⟨hout, by rw [hout]; simp⟩

/-- Closed instance of `runner_cancellation_precedence`: the
cancellation signal lands exactly when the 5-second timeout expires,
while the process would run to 100; the result is `cancelled`, not
`timeout`. -/
theorem runner_cancellation_precedence_witness :
    runnerOutcome 5 ⟨100, 0, some 5⟩ = ExecutionStatus.cancelled ∧
      runnerOutcome 5 ⟨100, 0, some 5⟩ ≠ ExecutionStatus.timeout :=
  runner_cancellation_precedence 5 ⟨100, 0, some 5⟩ 5 rfl (by decide) (by decide)

/-- C8: An Execution record in a terminal state (`success`, `failed`,
`timeout` or `cancelled`) is never mutated again: every lifecycle
event, and every sequence of lifecycle events, leaves the whole record
— status, output, error, started_at, finished_at — unchanged. -/
theorem terminal_execution_immutable (e : Execution)
    (h : e.status.isTerminal = true) :
    (∀ ev, applyEvent e ev = e) ∧
      ∀ evs : List ExecutionEvent, List.foldl applyEvent e evs = e := by
  have h1 : ∀ ev, applyEvent e ev = e := by
    intro ev
    rcases ev <;> rcases hs : e.status <;>
      simp_all [applyEvent, ExecutionStatus.isTerminal]
  refine ⟨h1, ?_⟩
  intro evs
  induction evs with
  | nil => rfl
  | cons ev evs ih => rw [List.foldl_cons, h1 ev]; exact ih

/-- Closed instance of `terminal_execution_immutable`: a completed
`success` record absorbs a late `start` and a late `complete` event
without any field changing. -/
theorem terminal_execution_immutable_witness :
    List.foldl applyEvent
        (⟨1, ExecutionStatus.success, some 3, some 9, some "ok", none, 0⟩ : Execution)
        [ExecutionEvent.start 11,
          ExecutionEvent.complete ExecutionStatus.failed 12 none (some "late")] =
      ⟨1, ExecutionStatus.success, some 3, some 9, some "ok", none, 0⟩ :=
  (terminal_execution_immutable _ (by decide)).2 _

/-- C9: The frontend API client's response interceptor returns
`undefined` for a 204 response; throws an `ApiError` carrying the
body's message (or the fallback text when the message is missing or
empty) whenever the body's `code` field is present and differs from
200; and otherwise returns the body's `data` field, never the raw
envelope. -/
theorem responseInterceptor_spec {α : Type} (r : AxiosResponse α) :
    (r.status = 204 → responseInterceptor r = Except.ok none) ∧
    (∀ b c, r.status ≠ 204 → r.body = some b → b.code = some c → c ≠ 200 →
      responseInterceptor r =
        Except.error ⟨envelopeErrorMessage b, r.status, some b⟩) ∧
    (∀ b, r.status ≠ 204 → r.body = some b →
      (b.code = none ∨ b.code = some 200) →
      responseInterceptor r = Except.ok b.data) ∧
    (∀ (b : ResponseBody α) (m : String), b.message = some m → m ≠ "" →
      envelopeErrorMessage b = m) := by
  refine ⟨?_, ?_, ?_, ?_⟩
  · intro h204
    simp [responseInterceptor, h204]
  · intro b c hne hb hcode hc200
    simp [responseInterceptor, hne, hb, hcode, hc200]
  · intro b hne hb hcode
    rcases hcode with hc | hc <;> simp [responseInterceptor, hne, hb, hc]
  · intro b m hm hne
    simp [envelopeErrorMessage, hm, hne]

/-- Closed instance of `responseInterceptor_spec`: a 200 response
whose envelope has code 400 and message "boom" raises an `ApiError`
carrying "boom", and never yields a data value. -/
theorem responseInterceptor_spec_witness :
    responseInterceptor (α := Nat) ⟨200, some ⟨some 400, some "boom", some 7⟩⟩ =
      Except.error ⟨"boom", 200, some ⟨some 400, some "boom", some 7⟩⟩ := by
  have hmain :=
    (responseInterceptor_spec (α := Nat)
        ⟨200, some ⟨some 400, some "boom", some 7⟩⟩).2.1
      ⟨some 400, some "boom", some 7⟩ 400 (by decide) rfl rfl (by decide)
  rw [hmain]
  rfl

end Cronix
